import Mathlib

/-!
Verification of the help-channel lifecycle manager and related helpers of a
Discord moderation bot (`bot/exts/help_channels/_cog.py`,
`bot/exts/help_channels/_message.py`, `bot/rules/mentions.py`).

The Python code is shallowly embedded: the bot's mutable state (external
key-value caches, channel categories, the dormant channel queue, the idle
scheduler) is an explicit `BotState` record, Discord API side effects are
recorded as an explicit list of `Action`s, and each coroutine of the cog
becomes a pure state-transformer.  Helper modules that are not part of the
embedded sources (the keyed-lock registry, the task scheduler, the closing-time
computation and the mentions anti-spam rule) are modelled from the
specification, as noted on their doc comments.
-/

namespace HelpBot

/-- A key-value cache keyed by ids (channel ids or user ids), mirroring the
external Redis caches of `bot/exts/help_channels/_caches.py`. -/
def Map (V : Type) : Type := Nat → Option V

/-- Cache `set`: overwrite the value at key `k`. -/
def Map.set {V : Type} (m : Map V) (k : Nat) (v : V) : Map V :=
  fun q => if q = k then some v else m q

/-- Cache `delete`: remove the entry at key `k`. -/
def Map.delete {V : Type} (m : Map V) (k : Nat) : Map V :=
  fun q => if q = k then none else m q

/-- Cache `get`. -/
def Map.get {V : Type} (m : Map V) (k : Nat) : Option V := m k

/-- The category a channel currently sits in.  `untracked` stands for a
channel id that does not (yet) exist in the guild. -/
inductive Category where
  | available
  | inUse
  | dormant
  | untracked
deriving DecidableEq

/-- `bot/exts/help_channels/_channel.py` `ClosingReason`: the reason a help
channel is closed. -/
inductive ClosingReason where
  | command
  | latest_message
  | other_message
  | deleted
  | cleanup
deriving DecidableEq

/-- A resource identifier used as the key of a keyed lock.  `intId` is a plain
Python `int` (as produced by `attrgetter` on an id attribute); `chanObj` is a
`discord.TextChannel` object, which compares equal only to channel objects
with the same id, never to an `int`. -/
inductive Resource where
  | intId (n : Nat)
  | chanObj (channelId : Nat)
deriving DecidableEq

/-- A lock registry key: a namespace string paired with a resource id,
mirroring `bot.utils.lock.lock_arg(namespace, arg, ...)`. -/
def LockKey : Type := String × Resource

instance : DecidableEq LockKey := instDecidableEqProd

/-- Configuration constants from `constants.HelpChannels`. -/
structure Config where
  idle_minutes_claimant : Nat
  idle_minutes_other : Nat
  deleted_idle_minutes : Nat
  notify : Bool
  notify_minutes : Nat
  max_available : Nat
  excluded_channels : List Nat

/-- The fields of a `discord.Message` the cog reads, plus the environment
facts Discord would provide about it (whether the author is still a guild
member, whether the author is a bot). -/
structure Message where
  id : Nat
  channel : Nat
  author : Nat
  authorIsMember : Bool
  authorIsBot : Bool
  createdAt : Nat

/-- The external key-value caches of `bot/exts/help_channels/_caches.py`. -/
structure Caches where
  claimants : Map Nat
  claim_times : Map Nat
  claimant_last_message_times : Map Nat
  non_claimant_last_message_times : Map Nat
  session_participants : Map (List Char)
  question_messages : Map Nat
  help_dm : Map Bool

/-- The mutable state of the `HelpChannels` cog: the caches, each channel's
current category, the dormant channel queue, the name queue, the scheduler's
table of pending idle-timer tasks (channel id, delay in seconds), the set of
currently available channels and the dynamic-message bookkeeping. -/
structure BotState where
  caches : Caches
  category : Nat → Category
  channelQueue : List Nat
  nameQueue : List (List Char)
  scheduled : List (Nat × Nat)
  availableHelpChannels : List Nat
  dynamicMessage : Option Nat
  lastNotification : Option Nat

/-- A Discord API side effect performed by the cog. -/
inductive Action where
  | addRole (user : Nat)
  | removeRole (user : Nat)
  | dmUser (user : Nat)
  | pinMsg (channel msg : Nat)
  | unpinMsg (channel msg : Nat)
  | sendDormantEmbed (channel : Nat)
  | sendAvailableEmbed (channel : Nat)
  | sendStaffAlert
  | sendBotCommandsNote (user : Nat)
  | spawnRefill
deriving DecidableEq

/-- True exactly on cooldown-role removals. -/
def Action.isRemoveRole : Action → Bool
  | .removeRole _ => true
  | _ => false

/-- Update one channel's category. -/
def setCategory (cat : Nat → Category) (ch : Nat) (c : Category) : Nat → Category :=
  fun q => if q = ch then c else cat q

/-- Modelled from the spec (the `bot.utils.scheduling.Scheduler` module is not
among the embedded sources): the idle scheduler keeps one cancellable callback
per channel id; `schedule_later` registers a callback with its delay and
`cancel` drops every callback registered for the given channel id. -/
def scheduleLater (tbl : List (Nat × Nat)) (delay : Nat) (ch : Nat) : List (Nat × Nat) :=
  tbl ++ [(ch, delay)]

/-- Modelled from the spec: `Scheduler.cancel` removes the scheduled callback
for a channel id (a no-op when none is scheduled). -/
def cancelSched (tbl : List (Nat × Nat)) (ch : Nat) : List (Nat × Nat) :=
  tbl.filter (fun e => e.1 ≠ ch)

/-- Number of scheduled idle-timer callbacks for channel `ch`. -/
def schedCount (ch : Nat) (tbl : List (Nat × Nat)) : Nat :=
  (tbl.filter (fun e => e.1 = ch)).length

/-- `move_to_in_use`: move the channel to the In Use category and schedule it
to be made dormant after `idle_minutes_claimant` minutes. -/
def move_to_in_use (cfg : Config) (s : BotState) (ch : Nat) : BotState :=
  { s with
    category := setCategory s.category ch Category.inUse
    scheduled := scheduleLater s.scheduled (cfg.idle_minutes_claimant * 60) ch }

/-- `move_to_dormant`: move the channel to the Dormant category, send the
dormant embed and push the channel onto the dormant channel queue. -/
def move_to_dormant (s : BotState) (ch : Nat) : BotState × List Action :=
  ({ s with
      category := setCategory s.category ch Category.dormant
      channelQueue := s.channelQueue ++ [ch] },
   [Action.sendDormantEmbed ch])

/-- `_message.pin`: pin the initial question message; on success remember it
in the `question_messages` cache.  `pinOk` is whether the Discord pin call
succeeded. -/
def pinQuestion (s : BotState) (m : Message) (pinOk : Bool) : BotState × List Action :=
  (if pinOk then
     { s with caches :=
        { s.caches with question_messages := s.caches.question_messages.set m.channel m.id } }
   else s,
   [Action.pinMsg m.channel m.id])

/-- `_message.unpin`: pop the remembered question message for the channel
(`pop` removes the cache entry either way) and unpin it if one was
remembered. -/
def unpinQuestion (s : BotState) (ch : Nat) : BotState × List Action :=
  ({ s with caches :=
      { s.caches with question_messages := s.caches.question_messages.delete ch } },
   match s.caches.question_messages.get ch with
   | none => []
   | some msgId => [Action.unpinMsg ch msgId])

/-- `claim_channel` (`_cog.py`): move the channel to In Use, give the claimant
the cooldown role and a DM when they are a guild member, pin the question
message, record the claimant and the three timestamps in the caches, drop the
channel from the available set and spawn the refill task. -/
def claim_channel (cfg : Config) (s : BotState) (m : Message) (pinOk : Bool) :
    BotState × List Action :=
  let s1 := move_to_in_use cfg s m.channel
  let roleActs := if m.authorIsMember then [Action.addRole m.author, Action.dmUser m.author] else []
  let (s2, pinActs) := pinQuestion s1 m pinOk
  let ts := m.createdAt
  let c := s2.caches
  let c := { c with claimants := c.claimants.set m.channel m.author }
  let c := { c with claim_times := c.claim_times.set m.channel ts }
  let c := { c with claimant_last_message_times := c.claimant_last_message_times.set m.channel ts }
  let c := { c with non_claimant_last_message_times := c.non_claimant_last_message_times.delete m.channel }
  let s3 := { s2 with
    caches := c
    availableHelpChannels := s2.availableHelpChannels.erase m.channel }
  (s3, roleActs ++ pinActs ++ [Action.spawnRefill])

/-- `_unclaim_channel` (`_cog.py`): delete the claimants and
session_participants cache entries, remove the cooldown role when the claimant
can still be fetched from the guild, unpin the question message, move the
channel to the Dormant category and, only when closed by the `close` command,
cancel the scheduled idle-timer task.  `memberFound` is whether
`get_or_fetch_member` found the claimant. -/
def _unclaim_channel (s : BotState) (ch : Nat) (claimant_id : Option Nat)
    (memberFound : Bool) (closed_on : ClosingReason) : BotState × List Action :=
  let c := s.caches
  let c := { c with claimants := c.claimants.delete ch }
  let c := { c with session_participants := c.session_participants.delete ch }
  let s1 := { s with caches := c }
  let fetched : Option Nat := match claimant_id with
    | some cid => if memberFound then some cid else none
    | none => none
  let roleActs := match fetched with
    | some cid => [Action.removeRole cid]
    | none => []
  let (s2, unpinActs) := unpinQuestion s1 ch
  let (s3, dormantActs) := move_to_dormant s2 ch
  let s4 := { s3 with scheduled :=
    if closed_on = ClosingReason.command then cancelSched s3.scheduled ch else s3.scheduled }
  (s4, roleActs ++ unpinActs ++ dormantActs)

/-- The lock keys acquired by the decorators of `claim_channel`:
`("help", channel.id)`, `("help", author.id)` and, waiting,
`("help.unclaim", author.id)`. -/
def claim_locks (channelId authorId : Nat) : List LockKey :=
  [("help", Resource.intId channelId),
   ("help", Resource.intId authorId),
   ("help.unclaim", Resource.intId authorId)]

/-- The lock keys acquired by `unclaim_channel`: the decorator's
`("help.unclaim", channel)` lock on the channel object, plus — only when a
claimant id is cached for the channel — the conditionally applied
`("help.unclaim", claimant_id)` lock. -/
def unclaim_locks (channelId : Nat) (cachedClaimant : Option Nat) : List LockKey :=
  ("help.unclaim", Resource.chanObj channelId) ::
    (match cachedClaimant with
     | some cid => [("help.unclaim", Resource.intId cid)]
     | none => [])

/-- The per-claimant lock keys `unclaim_channel` conditionally acquires around
`_unclaim_channel`: one lock on the cached claimant id when the cache has an
entry, none otherwise. -/
def unclaim_claimant_locks (cachedClaimant : Option Nat) : List LockKey :=
  match cachedClaimant with
  | some cid => [("help.unclaim", Resource.intId cid)]
  | none => []

/-- Result of a call to `unclaim_channel`: the new state, the recorded side
effects and the per-claimant lock keys that were acquired. -/
structure UnclaimResult where
  state : BotState
  actions : List Action
  claimantLocks : List LockKey

/-- `unclaim_channel` (`_cog.py`): read the cached claimant, conditionally
wrap `_unclaim_channel` in the per-claimant `"help.unclaim"` lock (only when
a claimant is cached) and run it. -/
def unclaim_channel (s : BotState) (ch : Nat) (memberFound : Bool)
    (closed_on : ClosingReason) : UnclaimResult :=
  let claimant_id := s.caches.claimants.get ch
  let (s2, acts) := _unclaim_channel s ch claimant_id memberFound closed_on
  { state := s2, actions := acts, claimantLocks := unclaim_claimant_locks claimant_id }

/-! ### Python strings, `str.split`, `",".join`, `str`/`int` conversion

Python strings are embedded as `List Char`.  The functions below embed the
string primitives `_serialise_session_participants` and
`_deserialise_session_participants` rely on, with Python's exact semantics
(most notably `"".split(",") == [""]`). -/

/-- Python `sep.join(parts)` for a list of strings. -/
def pyJoin (sep : List Char) : List (List Char) → List Char
  | [] => []
  | [x] => x
  | x :: y :: ys => x ++ sep ++ pyJoin sep (y :: ys)

/-- Python `s.split(sep)` for a single-character separator.  Splitting the
empty string yields `[""]`. -/
def pySplit (sep : Char) : List Char → List (List Char)
  | [] => [[]]
  | c :: cs =>
    if c = sep then [] :: pySplit sep cs
    else
      match pySplit sep cs with
      | [] => [[c]]
      | p :: ps => (c :: p) :: ps

/-- Python `str(n)` for a natural number: its decimal digits, most significant
first. -/
def renderNat (n : Nat) : List Char :=
  if n = 0 then ['0'] else ((Nat.digits 10 n).reverse).map Nat.digitChar

/-- Python `str(i)` for an integer: a minus sign followed by the decimal
digits when negative. -/
def renderInt : Int → List Char
  | Int.ofNat n => renderNat n
  | Int.negSucc m => '-' :: renderNat (m + 1)

/-- Numeric value of a decimal digit character. -/
def charVal (c : Char) : Nat := c.toNat - ('0').toNat

/-- Python `int(s)` on a string of decimal digits. -/
def parseNat (s : List Char) : Nat :=
  s.foldl (fun acc c => acc * 10 + charVal c) 0

/-- Python `int(s)` on an optionally minus-signed string of decimal digits. -/
def parseInt (s : List Char) : Int :=
  match s with
  | [] => 0
  | c :: rest => if c = '-' then -(parseNat rest : Int) else (parseNat s : Int)

/-- `_serialise_session_participants` (`_cog.py`): convert a set of user ids
to a comma separated string.  The Python set's (arbitrary) iteration order is
realised as the sorted enumeration of the finite set. -/
def _serialise_session_participants (participants : Finset Int) : List Char :=
  pyJoin [','] ((participants.sort (fun a b => a ≤ b)).map renderInt)

/-- `_deserialise_session_participants` (`_cog.py`): split a comma separated
string, drop empty fragments and collect the parsed user ids into a set. -/
def _deserialise_session_participants (s : List Char) : Finset Int :=
  (((pySplit ',' s).filter (fun u => !u.isEmpty)).map parseInt).toFinset

/-! ### Messages in in-use channels -/

/-- `_message.update_message_caches`: if a claimant is cached for the message's
channel, record the message's timestamp in the last-message cache matching the
author (claimant or not). -/
def update_message_caches (s : BotState) (m : Message) : BotState :=
  match s.caches.claimants.get m.channel with
  | none => s
  | some claimant_id =>
    let ts := m.createdAt
    if m.author = claimant_id then
      { s with caches := { s.caches with
          claimant_last_message_times := s.caches.claimant_last_message_times.set m.channel ts } }
    else
      { s with caches := { s.caches with
          non_claimant_last_message_times := s.caches.non_claimant_last_message_times.set m.channel ts } }

/-- `notify_session_participants` (`_cog.py`): DM a non-claimant participant
the first time they write in a help session, tracking who was already notified
in the `session_participants` cache; drop the opt-in flag when the DM is
forbidden.  `isCloseCommand` is whether the message invokes the close command,
`dmOk` whether the DM goes through. -/
def notify_session_participants (s : BotState) (m : Message) (isCloseCommand : Bool)
    (dmOk : Bool) : BotState × List Action :=
  if s.caches.claimants.get m.channel = some m.author then (s, [])
  else if (s.caches.help_dm.get m.author).getD false = false then (s, [])
  else if isCloseCommand then (s, [])
  else
    let sp := _deserialise_session_participants ((s.caches.session_participants.get m.channel).getD [])
    if (m.author : Int) ∈ sp then (s, [])
    else
      let sp2 := insert (m.author : Int) sp
      if dmOk then
        ({ s with caches := { s.caches with session_participants :=
             s.caches.session_participants.set m.channel (_serialise_session_participants sp2) } },
         [Action.dmUser m.author])
      else
        ({ s with caches := { s.caches with help_dm := s.caches.help_dm.delete m.author } },
         [Action.dmUser m.author, Action.sendBotCommandsNote m.author])

/-! ### Idle scheduling and the event system -/

/-- The closing reasons `_channel.get_closing_time` can derive from the cached
timestamps (never the close command). -/
inductive IdleReason where
  | latest_message
  | other_message
  | deleted
deriving DecidableEq

/-- Embed an idle reason into the closing reasons. -/
def IdleReason.toClosing : IdleReason → ClosingReason
  | .latest_message => ClosingReason.latest_message
  | .other_message => ClosingReason.other_message
  | .deleted => ClosingReason.deleted

/-- `move_idle_channel` (`_cog.py`): if the recomputed closing time already
passed, unclaim the channel; otherwise cancel the extant idle-timer task (when
`hasTask`) and schedule a replacement.  `inPast`, `reason` and `delay` are the
environment's answer to the `_channel.get_closing_time` computation, which is
modelled from the spec (it reads the cached timestamps and the configured idle
windows; the reason it reports is never the close command). -/
def move_idle_channel (s : BotState) (ch : Nat) (hasTask : Bool)
    (inPast : Bool) (reason : IdleReason) (delay : Nat) (memberFound : Bool) : BotState :=
  if inPast then (unclaim_channel s ch memberFound reason.toClosing).state
  else
    let s1 := if hasTask then { s with scheduled := cancelSched s.scheduled ch } else s
    { s1 with scheduled := scheduleLater s1.scheduled delay ch }

/-- A scheduled idle-timer callback fires: the completed task leaves the
scheduler table and its body `move_idle_channel(channel)` runs.  Nothing can
fire for a channel with no scheduled callback. -/
def fireTimer (s : BotState) (ch : Nat) (inPast : Bool) (reason : IdleReason)
    (delay : Nat) (memberFound : Bool) : BotState :=
  if schedCount ch s.scheduled = 0 then s
  else
    let s1 := { s with scheduled := cancelSched s.scheduled ch }
    move_idle_channel s1 ch true inPast reason delay memberFound

/-- `on_message_delete` (`_cog.py`): when a deletion leaves an in-use channel
empty, cancel the existing dormant task and reschedule it after
`deleted_idle_minutes` minutes. -/
def on_message_delete (cfg : Config) (s : BotState) (ch : Nat) (channelEmpty : Bool) : BotState :=
  if s.category ch ≠ Category.inUse then s
  else if channelEmpty = false then s
  else
    let s1 := { s with scheduled := cancelSched s.scheduled ch }
    { s1 with scheduled := scheduleLater s1.scheduled (cfg.deleted_idle_minutes * 60) ch }

/-- `on_message` (`_cog.py`): ignore bots; claim an available, non-excluded
channel; in an in-use channel, notify session participants and update the
last-message caches. -/
def on_message (cfg : Config) (s : BotState) (m : Message) (pinOk : Bool)
    (isCloseCommand : Bool) (dmOk : Bool) : BotState :=
  if m.authorIsBot then s
  else if s.category m.channel = Category.available then
    if m.channel ∈ cfg.excluded_channels then s
    else (claim_channel cfg s m pinOk).1
  else if s.category m.channel = Category.inUse then
    update_message_caches (notify_session_participants s m isCloseCommand dmOk).1 m
  else s

/-- `close_command` with `close_check` (`_cog.py`): unclaim the channel with
the command closing reason when it is in use and the invoker is the claimant
or has a whitelisted role (`authorOk`). -/
def close_command (s : BotState) (ch : Nat) (authorOk : Bool) (memberFound : Bool) : BotState :=
  if s.category ch = Category.inUse then
    if authorOk then (unclaim_channel s ch memberFound ClosingReason.command).state else s
  else s

/-- `create_dormant` (`_cog.py`): pop the next name off the name queue and
create a new channel (with a fresh Discord id) in the Dormant category;
return `none` when no names are left.  The popped name becomes the created
channel's name, which the state does not otherwise track. -/
def create_dormant (nameQueue : List (List Char)) (freshId : Nat) :
    Option (Nat × List (List Char)) :=
  match nameQueue with
  | [] => none
  | _ :: rest => some (freshId, rest)

/-- How `get_available_candidate` obtained (or failed to obtain) a channel. -/
inductive Candidate where
  | fromQueue (ch : Nat)
  | created (ch : Nat)
  | waitingForDormant
deriving DecidableEq

/-- Result of `get_available_candidate`: the candidate outcome, the remaining
dormant queue and name queue, and whether the throttled staff notification was
attempted. -/
structure CandidateResult where
  candidate : Candidate
  channelQueue : List Nat
  nameQueue : List (List Char)
  notifyAttempted : Bool

/-- `get_available_candidate` (`_cog.py`): take the next channel from the
dormant queue; when the queue is empty, create a new dormant channel; when
creation fails too (names exhausted), attempt the throttled staff notification
and block on the dormant queue until an entry is produced. -/
def get_available_candidate (channelQueue : List Nat) (nameQueue : List (List Char))
    (freshId : Nat) : CandidateResult :=
  match channelQueue with
  | ch :: rest =>
      { candidate := Candidate.fromQueue ch, channelQueue := rest,
        nameQueue := nameQueue, notifyAttempted := false }
  | [] =>
    match create_dormant nameQueue freshId with
    | some (ch, names2) =>
        { candidate := Candidate.created ch, channelQueue := [],
          nameQueue := names2, notifyAttempted := false }
    | none =>
        { candidate := Candidate.waitingForDormant, channelQueue := [],
          nameQueue := [], notifyAttempted := true }

/-- `move_to_available` as a state transition (the refill task spawned by
`claim_channel` and `init_available`): take a candidate via
`get_available_candidate` and move it to the Available category, adding it to
the available set.  A created channel has a fresh Discord id, so the creation
branch is guarded on `freshId` being untracked; with both queues empty the
task stays blocked waiting on the dormant queue. -/
def move_to_available (s : BotState) (freshId : Nat) : BotState :=
  match s.channelQueue with
  | ch :: rest =>
      { s with
        channelQueue := rest
        category := setCategory s.category ch Category.available
        availableHelpChannels := s.availableHelpChannels ++ [ch] }
  | [] =>
    match s.nameQueue with
    | [] => s
    | _ :: names =>
      if s.category freshId = Category.untracked then
        { s with
          nameQueue := names
          category := setCategory s.category freshId Category.available
          availableHelpChannels := s.availableHelpChannels ++ [freshId] }
      else s

/-- One event the running cog reacts to: a gateway message, an idle-timer
callback firing, a message deletion, a close command, or a spawned refill task
getting its turn. -/
inductive Event where
  | message (m : Message) (pinOk isCloseCommand dmOk : Bool)
  | timerFire (ch : Nat) (inPast : Bool) (reason : IdleReason) (delay : Nat) (memberFound : Bool)
  | messageDelete (ch : Nat) (channelEmpty : Bool)
  | closeCmd (ch : Nat) (authorOk : Bool) (memberFound : Bool)
  | refill (freshId : Nat)

/-- Dispatch one event.  Events for a given channel or user run to completion
before the next (the cooperative single-threaded model; overlapping claim and
unclaim of the same channel and user are serialized by the keyed locks). -/
def step (cfg : Config) (s : BotState) : Event → BotState
  | Event.message m pinOk icc dmOk => on_message cfg s m pinOk icc dmOk
  | Event.timerFire ch inPast reason delay mf => fireTimer s ch inPast reason delay mf
  | Event.messageDelete ch channelEmpty => on_message_delete cfg s ch channelEmpty
  | Event.closeCmd ch ok mf => close_command s ch ok mf
  | Event.refill freshId => move_to_available s freshId

/-- Run a sequence of events. -/
def runEvents (cfg : Config) (s : BotState) : List Event → BotState
  | [] => s
  | e :: es => runEvents cfg (step cfg s e) es

/-- The idle-timer invariant: every in-use channel has exactly one scheduled
idle-timer callback, and channels not in use have none. -/
def SchedInv (s : BotState) : Prop :=
  ∀ ch, schedCount ch s.scheduled = if s.category ch = Category.inUse then 1 else 0

/-- The reachable-state invariant: the idle-timer invariant together with the
dormant-queue discipline (queued channels sit in the Dormant category, each at
most once), which `move_to_dormant` maintains by pushing a channel only as it
goes dormant. -/
def StateInv (s : BotState) : Prop :=
  SchedInv s ∧ (∀ q ∈ s.channelQueue, s.category q = Category.dormant) ∧
    s.channelQueue.Nodup

/-! ### Staff notification throttle -/

/-- Python `timedelta.seconds` of a non-negative duration given in seconds:
the seconds part after whole days are split off. -/
def timedeltaSeconds (d : Nat) : Nat := d % 86400

/-- `_message.notify`: send the out-of-channels staff alert unless
notifications are disabled or the previous alert is more recent than the
configured minimum interval.  Returns the creation time of the sent message
(`sendResult`, `none` when the send raised) and records the attempted send. -/
def notify (notifyEnabled : Bool) (notifyMinutes : Nat) (now : Nat)
    (lastNotification : Option Nat) (sendResult : Option Nat) : Option Nat × List Action :=
  if notifyEnabled = false then (none, [])
  else
    let shouldSend : Bool := match lastNotification with
      | some last => decide (notifyMinutes * 60 ≤ timedeltaSeconds (now - last))
      | none => true
    if shouldSend = false then (none, [])
    else
      match sendResult with
      | some createdAt => (some createdAt, [Action.sendStaffAlert])
      | none => (none, [Action.sendStaffAlert])

/-! ### The mentions anti-spam rule -/

/-- A message as the anti-spam rules see it: an author and the bot-flags of
the users mentioned in it. -/
structure RuleMessage where
  author : String
  mentions : List Bool
deriving DecidableEq

/-- Modelled from the spec (only the unit tests of `bot/rules/mentions.py` are
among the embedded sources): keep the recent messages written by the last
message's author, count the mentions of non-bot users across them, and when
the total exceeds the configured maximum report the offending author, the
relevant messages and the total count.  The configured `interval` only scopes
which messages are recent; it does not enter the count. -/
def mentions_apply (lastAuthor : String) (recentMessages : List RuleMessage)
    (maxMentions : Nat) (_interval : Nat) : Option (String × List RuleMessage × Nat) :=
  let relevant := recentMessages.filter (fun m => m.author == lastAuthor)
  let total := (relevant.map (fun m => (m.mentions.filter (fun isBot => !isBot)).length)).sum
  if maxMentions < total then some (lastAuthor, relevant, total) else none

/-! ### The dynamic available-channels message -/

/-- A channel as the dynamic message renders it: its id and its position in
the channel list. -/
structure ChanPos where
  id : Nat
  pos : Nat
deriving DecidableEq

/-- The order the dynamic message lists channels in:
`sorted(self.available_help_channels, key=attrgetter("position"))`. -/
def renderAvailable (chans : List ChanPos) : List ChanPos :=
  List.insertionSort (fun a b => a.pos ≤ b.pos) chans

/-- What `update_available_help_channels` did with the dynamic message. -/
inductive UpdateOutcome where
  | edited (msgId : Nat)
  | sentNew (msgId : Nat)
deriving DecidableEq

/-- Result of `update_available_help_channels`: the rendered channel list, the
edit-or-send outcome, the remembered dynamic message id afterwards and whether
the id was written back to the cache. -/
structure UpdateResult where
  rendered : List ChanPos
  outcome : UpdateOutcome
  dynamicMessage : Option Nat
  cacheWritten : Bool

/-- `update_available_help_channels` (`_cog.py`): render the available
channels sorted ascending by position; when a dynamic message id is remembered
and that message still exists, edit it in place; otherwise send a new message,
remember its id and write the id to the cache.  `messageExists` is whether the
Discord edit finds the message (rather than raising NotFound), `newId` the id
Discord assigns to a newly sent message. -/
def update_available_help_channels (dynamicMessage : Option Nat) (chans : List ChanPos)
    (messageExists : Nat → Bool) (newId : Nat) : UpdateResult :=
  let rendered := renderAvailable chans
  match dynamicMessage with
  | some mid =>
    if messageExists mid then
      { rendered := rendered, outcome := UpdateOutcome.edited mid,
        dynamicMessage := some mid, cacheWritten := false }
    else
      { rendered := rendered, outcome := UpdateOutcome.sentNew newId,
        dynamicMessage := some newId, cacheWritten := true }
  | none =>
      { rendered := rendered, outcome := UpdateOutcome.sentNew newId,
        dynamicMessage := some newId, cacheWritten := true }

/-! ### Keyed mutual exclusion -/

/-- Two lock-key sets exclude each other exactly when they share a key. -/
def MutuallyExclusive (l1 l2 : List LockKey) : Prop :=
  ∃ k, k ∈ l1 ∧ k ∈ l2

instance (l1 l2 : List LockKey) : Decidable (MutuallyExclusive l1 l2) :=
  inferInstanceAs (Decidable (∃ k, k ∈ l1 ∧ k ∈ l2))

/-- Modelled from the spec (the `bot.utils.lock` module is not among the
embedded sources): a `lock_arg` decorator with `wait=False` skips the call
entirely when its lock is already held, and with `wait=True` waits for the
holder.  Two overlapping claim attempts on one channel: the first acquires its
locks and runs; the second is skipped when one of its two non-waiting locks
(`("help", channel.id)`, `("help", author.id)`) is held by the first, and only
otherwise runs (after waiting).  Both claims address the same channel `ch`. -/
def runTwoClaims (cfg : Config) (s : BotState) (ch a1 a2 id1 id2 ts1 ts2 : Nat)
    (pin1 pin2 mem1 mem2 : Bool) : BotState :=
  let m1 : Message := ⟨id1, ch, a1, mem1, false, ts1⟩
  let m2 : Message := ⟨id2, ch, a2, mem2, false, ts2⟩
  let s1 := (claim_channel cfg s m1 pin1).1
  let nonwait2 : List LockKey :=
    [("help", Resource.intId m2.channel), ("help", Resource.intId m2.author)]
  if nonwait2.any (fun k => decide (k ∈ claim_locks m1.channel m1.author)) then s1
  else (claim_channel cfg s1 m2 pin2).1

/-- The position order on channels is total. -/
instance : IsTotal ChanPos (fun a b => a.pos ≤ b.pos) :=
  ⟨fun a b => Nat.le_total a.pos b.pos⟩

/-- The position order on channels is transitive. -/
instance : IsTrans ChanPos (fun a b => a.pos ≤ b.pos) :=
  ⟨fun _ _ _ h1 h2 => Nat.le_trans h1 h2⟩

/-! ### Concrete states for instantiating the theorems -/

/-- Caches with no entries. -/
def emptyCaches : Caches :=
  { claimants := fun _ => none
    claim_times := fun _ => none
    claimant_last_message_times := fun _ => none
    non_claimant_last_message_times := fun _ => none
    session_participants := fun _ => none
    question_messages := fun _ => none
    help_dm := fun _ => none }

/-- A concrete post-initialisation state: channels 0–2 available, everything
else dormant, no pending timers, empty queues. -/
def testState : BotState :=
  { caches := emptyCaches
    category := fun ch => if ch ≤ 2 then Category.available else Category.dormant
    channelQueue := []
    nameQueue := []
    scheduled := []
    availableHelpChannels := [0, 1, 2]
    dynamicMessage := none
    lastNotification := none }

/-- A concrete configuration. -/
def testConfig : Config :=
  { idle_minutes_claimant := 30
    idle_minutes_other := 10
    deleted_idle_minutes := 5
    notify := true
    notify_minutes := 15
    max_available := 3
    excluded_channels := [] }

/-- A concrete claiming message: user 42 writes message 100 in channel 1. -/
def testMessage : Message :=
  { id := 100, channel := 1, author := 42, authorIsMember := true,
    authorIsBot := false, createdAt := 1000 }

/-- `testState` with user 42 cached as the claimant of channel 1. -/
def testStateClaimed : BotState :=
  { testState with caches :=
      { emptyCaches with claimants := fun ch => if ch = 1 then some 42 else none } }

/-! ## Theorems -/

/-- C1: for every help channel, `unclaim_channel` deletes the channel's
claimants and session_participants cache entries, moves the channel to the
Dormant category and pushes it onto the dormant channel queue; the resulting
state is the same whether or not the claimant is still a guild member, and
when the claimant cannot be fetched exactly the cooldown-role removal is
dropped from the performed side effects. -/
theorem unclaim_always_dormant (s : BotState) (ch : Nat) (memberFound : Bool)
    (closed_on : ClosingReason) :
    (unclaim_channel s ch memberFound closed_on).state.caches.claimants.get ch = none ∧
    (unclaim_channel s ch memberFound closed_on).state.caches.session_participants.get ch = none ∧
    (unclaim_channel s ch memberFound closed_on).state.category ch = Category.dormant ∧
    (unclaim_channel s ch memberFound closed_on).state.channelQueue = s.channelQueue ++ [ch] ∧
    (unclaim_channel s ch true closed_on).state = (unclaim_channel s ch false closed_on).state ∧
    (unclaim_channel s ch false closed_on).actions
      = ((unclaim_channel s ch true closed_on).actions.filter fun a => !a.isRemoveRole) := by
  refine ⟨?_, ?_, ?_, ?_, rfl, ?_⟩
  · simp [unclaim_channel, _unclaim_channel, unpinQuestion, move_to_dormant, Map.get, Map.delete]
  · simp [unclaim_channel, _unclaim_channel, unpinQuestion, move_to_dormant, Map.get, Map.delete]
  · simp [unclaim_channel, _unclaim_channel, unpinQuestion, move_to_dormant, setCategory]
  · simp [unclaim_channel, _unclaim_channel, unpinQuestion, move_to_dormant]
  · cases hc : s.caches.claimants ch <;>
      cases hq : s.caches.question_messages ch <;>
      simp [unclaim_channel, _unclaim_channel, unpinQuestion, move_to_dormant, Map.get,
        hc, hq, Action.isRemoveRole]

/-- C2: claiming the channel of a triggering message in an Available-category
channel moves the channel to the In-Use category, pins the message, records
the author as claimant, sets the claim-time and claimant-last-message-time
caches to the message's creation timestamp, deletes the
non-claimant-last-message-time entry and schedules an idle timer of
`idle_minutes_claimant` minutes for the channel. -/
theorem claim_channel_effects (cfg : Config) (s : BotState) (m : Message) (pinOk : Bool)
    (hAvail : s.category m.channel = Category.available) :
    (claim_channel cfg s m pinOk).1.category m.channel = Category.inUse ∧
    Action.pinMsg m.channel m.id ∈ (claim_channel cfg s m pinOk).2 ∧
    (claim_channel cfg s m pinOk).1.caches.claimants.get m.channel = some m.author ∧
    (claim_channel cfg s m pinOk).1.caches.claim_times.get m.channel = some m.createdAt ∧
    (claim_channel cfg s m pinOk).1.caches.claimant_last_message_times.get m.channel
      = some m.createdAt ∧
    (claim_channel cfg s m pinOk).1.caches.non_claimant_last_message_times.get m.channel = none ∧
    (m.channel, cfg.idle_minutes_claimant * 60) ∈ (claim_channel cfg s m pinOk).1.scheduled := by
  cases pinOk <;> cases hm : m.authorIsMember <;>
    simp [claim_channel, move_to_in_use, pinQuestion, Map.get, Map.set, Map.delete,
      setCategory, scheduleLater, hm]

/-- Witness for C2 at a concrete state: channel 1 is available and claiming it
records user 42. -/
theorem claim_channel_effects_witness :
    testState.category testMessage.channel = Category.available ∧
    (claim_channel testConfig testState testMessage true).1.caches.claimants.get
      testMessage.channel = some testMessage.author :=
  ⟨by decide, (claim_channel_effects testConfig testState testMessage true (by decide)).2.2.1⟩

/-- C7: `unclaim_channel` acquires the per-claimant `"help.unclaim"` lock
exactly when a claimant id is cached for the channel; when the claimants cache
returns none, the inner unclaim runs with no per-claimant lock taken and still
performs the full unclaim. -/
theorem unclaim_conditional_lock (s : BotState) (ch : Nat) (memberFound : Bool)
    (closed_on : ClosingReason) :
    (∀ cid, s.caches.claimants.get ch = some cid →
      (unclaim_channel s ch memberFound closed_on).claimantLocks
        = [("help.unclaim", Resource.intId cid)]) ∧
    (s.caches.claimants.get ch = none →
      (unclaim_channel s ch memberFound closed_on).claimantLocks = [] ∧
      (unclaim_channel s ch memberFound closed_on).state.caches.claimants.get ch = none ∧
      (unclaim_channel s ch memberFound closed_on).state.caches.session_participants.get ch
        = none ∧
      (unclaim_channel s ch memberFound closed_on).state.category ch = Category.dormant ∧
      (unclaim_channel s ch memberFound closed_on).state.channelQueue
        = s.channelQueue ++ [ch]) := by
  constructor
  · intro cid hc
    simp only [Map.get] at hc
    simp [unclaim_channel, unclaim_claimant_locks, Map.get, hc]
  · intro hc
    simp only [Map.get] at hc
    refine ⟨?_, ?_, ?_, ?_, ?_⟩ <;>
      simp [unclaim_channel, _unclaim_channel, unclaim_claimant_locks, unpinQuestion,
        move_to_dormant, Map.get, Map.delete, setCategory, hc]

/-- Witness for C7: with a cached claimant the per-claimant lock is taken;
with no cached claimant no lock is taken and the channel still goes dormant. -/
theorem unclaim_conditional_lock_witness :
    ((unclaim_channel testStateClaimed 1 true ClosingReason.command).claimantLocks
      = [("help.unclaim", Resource.intId 42)]) ∧
    ((unclaim_channel testState 5 true ClosingReason.command).claimantLocks = [] ∧
      (unclaim_channel testState 5 true ClosingReason.command).state.category 5
        = Category.dormant) :=
  ⟨(unclaim_conditional_lock testStateClaimed 1 true ClosingReason.command).1 42 rfl,
   ((unclaim_conditional_lock testState 5 true ClosingReason.command).2 rfl).1,
   ((unclaim_conditional_lock testState 5 true ClosingReason.command).2 rfl).2.2.2.1⟩

/-- C4: `create_dormant` returns none exactly when the name queue is empty;
`get_available_candidate` ends up waiting on the dormant queue (with the
throttled staff notification attempted) exactly when both the dormant queue
and the name queue are empty, and otherwise uses the queue or a newly created
channel — there is no hard-failure outcome. -/
theorem out_of_names_waits (q : List Nat) (names : List (List Char)) (freshId : Nat)
    (nm : List Char) (names2 : List (List Char)) :
    (create_dormant names freshId = none ↔ names = []) ∧
    ((get_available_candidate q names freshId).candidate = Candidate.waitingForDormant
      ↔ q = [] ∧ names = []) ∧
    ((get_available_candidate q names freshId).notifyAttempted = true
      ↔ q = [] ∧ names = []) ∧
    (get_available_candidate [] (nm :: names2) freshId).candidate
      = Candidate.created freshId := by
  refine ⟨?_, ?_, ?_, rfl⟩ <;> cases q <;> cases names <;>
    simp [create_dormant, get_available_candidate]

/-- C5: the out-of-channels alert is rate limited — a notify call whose
previous notification lies less than `notify_minutes * 60` seconds in the past
returns none and performs no send at all. -/
theorem notify_throttle (enabled : Bool) (minutes now last : Nat) (sendResult : Option Nat)
    (h1 : last ≤ now) (h2 : now - last < minutes * 60) :
    notify enabled minutes now (some last) sendResult = (none, []) := by
  have hmod : timedeltaSeconds (now - last) < minutes * 60 :=
    lt_of_le_of_lt (Nat.mod_le _ _) h2
  have hns : ¬ (minutes * 60 ≤ timedeltaSeconds (now - last)) := Nat.not_le.mpr hmod
  cases enabled <;> simp [notify, decide_eq_false hns]

/-- Witness for C5: ten minutes elapsed of a fifteen-minute interval yields no
second alert. -/
theorem notify_throttle_witness :
    notify true 15 1000 (some 400) (some 1000) = (none, []) :=
  notify_throttle true 15 1000 400 (some 1000) (by decide) (by decide)

/-- C6: the mentions rule with max=2 and interval=10 counts only mentions of
non-bot users by the reported author: a history with one message by bob
containing 3 user mentions reports bob with total 3, one with 2 user mentions
reports nothing, and bot mentions do not count towards the total. -/
theorem mentions_rule_cases :
    mentions_apply ("bob") [⟨"bob", [false, false, false]⟩] 2 10
      = some ("bob", [⟨"bob", [false, false, false]⟩], 3) ∧
    mentions_apply ("bob") [⟨"bob", [false, false]⟩] 2 10 = none ∧
    mentions_apply ("bob") [⟨"bob", [false, false, true, true, true]⟩] 2 10 = none := by
  refine ⟨?_, ?_, ?_⟩ <;> rfl

/-! ### Scheduler counting lemmas -/

/-- Cancelling a channel's callbacks leaves none for it. -/
theorem schedCount_cancel_self (tbl : List (Nat × Nat)) (ch : Nat) :
    schedCount ch (cancelSched tbl ch) = 0 := by
  induction tbl with
  | nil => rfl
  | cons e t ih =>
      by_cases h : e.1 = ch
      · simpa [cancelSched, List.filter_cons, h] using ih
      · simpa [schedCount, cancelSched, List.filter_cons, h] using ih

/-- Cancelling one channel's callbacks leaves other channels' counts alone. -/
theorem schedCount_cancel_ne (tbl : List (Nat × Nat)) (ch ch2 : Nat) (h : ch2 ≠ ch) :
    schedCount ch2 (cancelSched tbl ch) = schedCount ch2 tbl := by
  induction tbl with
  | nil => rfl
  | cons e t ih =>
      have hcc : ch ≠ ch2 := fun hx => h hx.symm
      by_cases h1 : e.1 = ch
      · simpa [schedCount, cancelSched, List.filter_cons, h1, hcc] using ih
      · by_cases h2 : e.1 = ch2 <;>
          simpa [schedCount, cancelSched, List.filter_cons, h1, h2, h] using ih

/-- Scheduling a callback raises that channel's count by one. -/
theorem schedCount_schedule_self (tbl : List (Nat × Nat)) (d ch : Nat) :
    schedCount ch (scheduleLater tbl d ch) = schedCount ch tbl + 1 := by
  simp [schedCount, scheduleLater, List.filter_append]

/-- Scheduling a callback leaves other channels' counts alone. -/
theorem schedCount_schedule_ne (tbl : List (Nat × Nat)) (d ch ch2 : Nat) (h : ch2 ≠ ch) :
    schedCount ch2 (scheduleLater tbl d ch) = schedCount ch2 tbl := by
  simp [schedCount, scheduleLater, List.filter_append, Ne.symm h]

/-! ### State projections of the cog operations -/

/-- The scheduler table after a claim: one new callback for the channel. -/
theorem claim_scheduled (cfg : Config) (s : BotState) (m : Message) (pinOk : Bool) :
    (claim_channel cfg s m pinOk).1.scheduled
      = scheduleLater s.scheduled (cfg.idle_minutes_claimant * 60) m.channel := by
  cases pinOk <;> rfl

/-- The categories after a claim: the claimed channel becomes in-use. -/
theorem claim_category (cfg : Config) (s : BotState) (m : Message) (pinOk : Bool) :
    (claim_channel cfg s m pinOk).1.category
      = setCategory s.category m.channel Category.inUse := by
  cases pinOk <;> rfl

/-- A claim does not touch the dormant channel queue. -/
theorem claim_queue (cfg : Config) (s : BotState) (m : Message) (pinOk : Bool) :
    (claim_channel cfg s m pinOk).1.channelQueue = s.channelQueue := by
  cases pinOk <;> rfl

/-- The scheduler table after an unclaim: cancelled for the close command,
untouched otherwise. -/
theorem unclaim_scheduled (s : BotState) (ch : Nat) (mf : Bool) (r : ClosingReason) :
    (unclaim_channel s ch mf r).state.scheduled
      = if r = ClosingReason.command then cancelSched s.scheduled ch else s.scheduled := rfl

/-- The categories after an unclaim: the channel goes dormant. -/
theorem unclaim_category (s : BotState) (ch : Nat) (mf : Bool) (r : ClosingReason) :
    (unclaim_channel s ch mf r).state.category
      = setCategory s.category ch Category.dormant := rfl

/-- The dormant queue after an unclaim: the channel is pushed at the back. -/
theorem unclaim_queue (s : BotState) (ch : Nat) (mf : Bool) (r : ClosingReason) :
    (unclaim_channel s ch mf r).state.channelQueue = s.channelQueue ++ [ch] := rfl

/-- Participant notification touches only the caches. -/
theorem nsp_projections (s : BotState) (m : Message) (icc dmOk : Bool) :
    (notify_session_participants s m icc dmOk).1.scheduled = s.scheduled ∧
    (notify_session_participants s m icc dmOk).1.category = s.category ∧
    (notify_session_participants s m icc dmOk).1.channelQueue = s.channelQueue := by
  unfold notify_session_participants
  dsimp only
  repeat' split
  all_goals exact ⟨rfl, rfl, rfl⟩

/-- Last-message cache maintenance touches only the caches. -/
theorem umc_projections (s : BotState) (m : Message) :
    (update_message_caches s m).scheduled = s.scheduled ∧
    (update_message_caches s m).category = s.category ∧
    (update_message_caches s m).channelQueue = s.channelQueue := by
  unfold update_message_caches
  dsimp only
  repeat' split
  all_goals exact ⟨rfl, rfl, rfl⟩

/-- An idle reason is never the close command. -/
theorem idleReason_ne_command (r : IdleReason) : r.toClosing ≠ ClosingReason.command := by
  cases r <;> simp [IdleReason.toClosing]

/-- Appending a fresh element keeps a list duplicate-free. -/
theorem nodup_push (l : List Nat) (a : Nat) (hnd : l.Nodup) (ha : a ∉ l) :
    (l ++ [a]).Nodup := by
  simp [List.nodup_append, hnd, List.disjoint_singleton, ha]

/-! ### Invariant preservation -/

/-- The invariant only looks at the scheduler table, the categories and the
queue. -/
theorem stateInv_congr (s s' : BotState) (h1 : s'.scheduled = s.scheduled)
    (h2 : s'.category = s.category) (h3 : s'.channelQueue = s.channelQueue)
    (h : StateInv s) : StateInv s' := by
  obtain ⟨hs, hq, hnd⟩ := h
  refine ⟨fun ch => ?_, fun q hqm => ?_, h3 ▸ hnd⟩
  · rw [h1, h2]; exact hs ch
  · rw [h2]; exact hq q (h3 ▸ hqm)

/-- Claiming an available channel preserves the invariant: the claimed channel
gets its one idle timer as it becomes in-use. -/
theorem stateInv_claim (cfg : Config) (s : BotState) (m : Message) (pinOk : Bool)
    (h : StateInv s) (hc : s.category m.channel = Category.available) :
    StateInv (claim_channel cfg s m pinOk).1 := by
  obtain ⟨hs, hq, hnd⟩ := h
  refine ⟨fun ch => ?_, fun q hqm => ?_, ?_⟩
  · rw [claim_scheduled, claim_category]
    by_cases hch : ch = m.channel
    · rw [hch, schedCount_schedule_self]
      have h0 := hs m.channel
      rw [hc] at h0
      simp only [reduceCtorEq, if_false] at h0
      simp [setCategory, h0]
    · rw [schedCount_schedule_ne _ _ _ _ hch]
      simpa [setCategory, hch] using hs ch
  · rw [claim_queue] at hqm
    have hqd := hq q hqm
    have hne : q ≠ m.channel := by
      intro e
      rw [e, hc] at hqd
      exact absurd hqd (by simp)
    rw [claim_category]
    simp [setCategory, hne, hqd]
  · rw [claim_queue]; exact hnd

/-- Unclaiming an in-use channel by the close command preserves the invariant:
its timer is cancelled as it goes dormant. -/
theorem stateInv_unclaim_command (s : BotState) (ch : Nat) (mf : Bool)
    (h : StateInv s) (hcat : s.category ch = Category.inUse) :
    StateInv (unclaim_channel s ch mf ClosingReason.command).state := by
  obtain ⟨hs, hq, hnd⟩ := h
  have hnotq : ch ∉ s.channelQueue := by
    intro hm
    have := hq ch hm
    rw [hcat] at this
    exact absurd this (by simp)
  have hsch : (unclaim_channel s ch mf ClosingReason.command).state.scheduled
      = cancelSched s.scheduled ch := by
    rw [unclaim_scheduled]; simp
  refine ⟨fun q => ?_, fun q hqm => ?_, ?_⟩
  · rw [hsch, unclaim_category]
    by_cases hch : q = ch
    · rw [hch, schedCount_cancel_self]
      simp [setCategory]
    · rw [schedCount_cancel_ne _ _ _ hch]
      simpa [setCategory, hch] using hs q
  · rw [unclaim_queue] at hqm
    rw [unclaim_category]
    rcases List.mem_append.mp hqm with hold | hnew
    · have hqd := hq q hold
      have hne : q ≠ ch := by
        intro e
        rw [e, hcat] at hqd
        exact absurd hqd (by simp)
      simp [setCategory, hne, hqd]
    · have hqe : q = ch := by simpa using hnew
      simp [setCategory, hqe]
  · rw [unclaim_queue]
    exact nodup_push _ _ hnd hnotq

/-- Unclaiming an in-use channel whose fired timer already left the scheduler
table preserves the invariant (the non-command closing reasons do not cancel
again). -/
theorem stateInv_unclaim_fire (s : BotState) (ch : Nat) (mf : Bool) (r : ClosingReason)
    (hr : r ≠ ClosingReason.command)
    (hcat : s.category ch = Category.inUse)
    (hcnt : schedCount ch s.scheduled = 0)
    (hs' : ∀ q, q ≠ ch → schedCount q s.scheduled
      = if s.category q = Category.inUse then 1 else 0)
    (hq : ∀ q ∈ s.channelQueue, s.category q = Category.dormant)
    (hnd : s.channelQueue.Nodup) :
    StateInv (unclaim_channel s ch mf r).state := by
  have hnotq : ch ∉ s.channelQueue := by
    intro hm
    have := hq ch hm
    rw [hcat] at this
    exact absurd this (by simp)
  refine ⟨fun q => ?_, fun q hqm => ?_, ?_⟩
  · rw [unclaim_scheduled, if_neg hr, unclaim_category]
    by_cases hch : q = ch
    · rw [hch, hcnt]
      simp [setCategory]
    · simpa [setCategory, hch] using hs' q hch
  · rw [unclaim_queue] at hqm
    rw [unclaim_category]
    rcases List.mem_append.mp hqm with hold | hnew
    · have hqd := hq q hold
      have hne : q ≠ ch := by
        intro e
        rw [e, hcat] at hqd
        exact absurd hqd (by simp)
      simp [setCategory, hne, hqd]
    · have hqe : q = ch := by simpa using hnew
      simp [setCategory, hqe]
  · rw [unclaim_queue]
    exact nodup_push _ _ hnd hnotq

/-- Every event preserves the reachable-state invariant. -/
theorem stateInv_step (cfg : Config) (s : BotState) (e : Event) (h : StateInv s) :
    StateInv (step cfg s e) := by
  cases e with
  | message m pinOk icc dmOk =>
      show StateInv (on_message cfg s m pinOk icc dmOk)
      unfold on_message
      by_cases hb : m.authorIsBot = true
      · rw [if_pos hb]; exact h
      · rw [if_neg hb]
        by_cases hav : s.category m.channel = Category.available
        · rw [if_pos hav]
          by_cases hex : m.channel ∈ cfg.excluded_channels
          · rw [if_pos hex]; exact h
          · rw [if_neg hex]; exact stateInv_claim cfg s m pinOk h hav
        · rw [if_neg hav]
          by_cases hin : s.category m.channel = Category.inUse
          · rw [if_pos hin]
            obtain ⟨n1, n2, n3⟩ := nsp_projections s m icc dmOk
            obtain ⟨u1, u2, u3⟩ := umc_projections (notify_session_participants s m icc dmOk).1 m
            exact stateInv_congr _ _ (u1.trans n1) (u2.trans n2) (u3.trans n3) h
          · rw [if_neg hin]; exact h
  | timerFire ch inPast reason delay mf =>
      show StateInv (fireTimer s ch inPast reason delay mf)
      unfold fireTimer
      by_cases h0 : schedCount ch s.scheduled = 0
      · rw [if_pos h0]; exact h
      · rw [if_neg h0]
        obtain ⟨hs, hq, hnd⟩ := h
        have hcat : s.category ch = Category.inUse := by
          by_contra hcc
          exact h0 (by simpa [hcc] using hs ch)
        unfold move_idle_channel
        by_cases hp : inPast = true
        · rw [if_pos hp]
          refine stateInv_unclaim_fire _ ch mf _ (idleReason_ne_command reason) hcat
            (schedCount_cancel_self _ _) (fun q hq2 => ?_) hq hnd
          show schedCount q (cancelSched s.scheduled ch)
            = if s.category q = Category.inUse then 1 else 0
          rw [schedCount_cancel_ne _ _ _ hq2]
          exact hs q
        · rw [if_neg hp]
          refine ⟨fun q => ?_, fun q hqm => hq q hqm, hnd⟩
          by_cases hqc : q = ch
          · rw [hqc]
            simp [schedCount_schedule_self, schedCount_cancel_self, hcat]
          · simp [schedCount_schedule_ne _ _ _ _ hqc, schedCount_cancel_ne _ _ _ hqc]
            exact hs q
  | messageDelete ch channelEmpty =>
      show StateInv (on_message_delete cfg s ch channelEmpty)
      unfold on_message_delete
      by_cases h1 : s.category ch = Category.inUse
      · rw [if_neg (not_not_intro h1)]
        by_cases h2 : channelEmpty = false
        · rw [if_pos h2]; exact h
        · rw [if_neg h2]
          obtain ⟨hs, hq, hnd⟩ := h
          refine ⟨fun q => ?_, fun q hqm => hq q hqm, hnd⟩
          by_cases hqc : q = ch
          · rw [hqc]
            simp [schedCount_schedule_self, schedCount_cancel_self, h1]
          · simp [schedCount_schedule_ne _ _ _ _ hqc, schedCount_cancel_ne _ _ _ hqc]
            exact hs q
      · rw [if_pos h1]; exact h
  | closeCmd ch ok mf =>
      show StateInv (close_command s ch ok mf)
      unfold close_command
      by_cases h1 : s.category ch = Category.inUse
      · rw [if_pos h1]
        by_cases h2 : ok = true
        · rw [if_pos h2]; exact stateInv_unclaim_command s ch mf h h1
        · rw [if_neg h2]; exact h
      · rw [if_neg h1]; exact h
  | refill freshId =>
      show StateInv (move_to_available s freshId)
      unfold move_to_available
      obtain ⟨hs, hq, hnd⟩ := h
      cases hcq : s.channelQueue with
      | nil =>
          cases hnq : s.nameQueue with
          | nil =>
              dsimp only
              exact ⟨hs, hq, hnd⟩
          | cons nm names =>
              dsimp only
              by_cases hf : s.category freshId = Category.untracked
              · rw [if_pos hf]
                refine ⟨fun q => ?_, fun q hqm => ?_, ?_⟩
                · by_cases hqc : q = freshId
                  · have h0 := hs freshId
                    rw [hf] at h0
                    simp only [reduceCtorEq, if_false] at h0
                    simp [hqc, setCategory, h0]
                  · simpa [setCategory, hqc] using hs q
                · exact absurd hqm (List.not_mem_nil q)
                · exact List.nodup_nil
              · rw [if_neg hf]; exact ⟨hs, hq, hnd⟩
      | cons ch rest =>
          dsimp only
          rw [hcq] at hq hnd
          refine ⟨fun q => ?_, fun q hqm => ?_, (List.nodup_cons.mp hnd).2⟩
          · by_cases hqc : q = ch
            · have hd : s.category ch = Category.dormant := hq ch (List.mem_cons_self ch rest)
              have h0 := hs ch
              rw [hd] at h0
              simp only [reduceCtorEq, if_false] at h0
              simp [hqc, setCategory, h0]
            · simpa [setCategory, hqc] using hs q
          · have hqd := hq q (List.mem_cons_of_mem _ hqm)
            have hne : q ≠ ch := fun e => (List.nodup_cons.mp hnd).1 (e ▸ hqm)
            simpa [setCategory, hne] using hqd

/-- The invariant holds along every event trace. -/
theorem stateInv_run (cfg : Config) (s : BotState) (es : List Event) (h : StateInv s) :
    StateInv (runEvents cfg s es) := by
  induction es generalizing s with
  | nil => exact h
  | cons e es ih => exact ih (step cfg s e) (stateInv_step cfg s e h)

/-- C3: at every state reachable from a state satisfying the invariant, an
in-use channel has exactly one scheduled idle-timer callback in the scheduler
table — never zero while in use and never two: `move_to_in_use` schedules the
one timer, reschedules cancel before scheduling, and unclaim removes it. -/
theorem in_use_exactly_one_timer (cfg : Config) (s0 : BotState) (hInv : StateInv s0)
    (es : List Event) (ch : Nat)
    (hin : (runEvents cfg s0 es).category ch = Category.inUse) :
    schedCount ch (runEvents cfg s0 es).scheduled = 1 := by
  have hrun := (stateInv_run cfg s0 es hInv).1 ch
  rw [hin] at hrun
  simpa using hrun

/-- Witness for C3: from the concrete initial state, after user 42 claims
channel 1, channel 1 is in use with exactly one scheduled callback. -/
theorem in_use_exactly_one_timer_witness :
    schedCount 1 (runEvents testConfig testState
      [Event.message testMessage true false true]).scheduled = 1 :=
  in_use_exactly_one_timer testConfig testState
    (by
      refine ⟨fun ch => ?_, fun q hq => absurd hq (List.not_mem_nil q), List.nodup_nil⟩
      by_cases h : ch ≤ 2 <;> simp [testState, schedCount, h])
    [Event.message testMessage true false true] 1 (by decide)

/-- C8: the dynamic available-channels message lists the channels in ascending
position order (a permutation of the available set), and updating it is an
edit-or-send operation keyed by the remembered message id: with a remembered
id whose message still exists it edits that message in place and keeps the id;
otherwise it sends a new message, remembers the new id and writes it to the
cache. -/
theorem update_available_edit_or_send (chans : List ChanPos) (messageExists : Nat → Bool)
    (newId mid : Nat) :
    List.Sorted (fun a b => a.pos ≤ b.pos)
      (update_available_help_channels (some mid) chans messageExists newId).rendered ∧
    (update_available_help_channels (some mid) chans messageExists newId).rendered.Perm chans ∧
    ((update_available_help_channels (some mid) chans messageExists newId).outcome
      = if messageExists mid then UpdateOutcome.edited mid else UpdateOutcome.sentNew newId) ∧
    ((update_available_help_channels (some mid) chans messageExists newId).dynamicMessage
      = if messageExists mid then some mid else some newId) ∧
    ((update_available_help_channels (some mid) chans messageExists newId).cacheWritten
      = !(messageExists mid)) ∧
    (update_available_help_channels none chans messageExists newId).outcome
      = UpdateOutcome.sentNew newId ∧
    (update_available_help_channels none chans messageExists newId).dynamicMessage
      = some newId ∧
    (update_available_help_channels none chans messageExists newId).cacheWritten = true := by
  have hrend : (update_available_help_channels (some mid) chans messageExists newId).rendered
      = renderAvailable chans := by
    cases h : messageExists mid <;> simp [update_available_help_channels, h]
  refine ⟨?_, ?_, ?_, ?_, ?_, rfl, rfl, rfl⟩
  · rw [hrend]
    exact List.sorted_insertionSort _ chans
  · rw [hrend]
    exact List.perm_insertionSort _ chans
  all_goals cases h : messageExists mid <;> simp [update_available_help_channels, h]

/-- C9 counterexample: a claim of channel 1 by user 2 and an unclaim of the
same channel 1 whose cached claimant is user 3 target the same channel id, yet
they share no lock key — the claim locks `("help", 1)` while the unclaim locks
`("help.unclaim", <channel object 1>)` — so the two invocations are not
mutually exclusive. -/
theorem claim_unclaim_same_channel_share_no_lock :
    ¬ MutuallyExclusive (claim_locks 1 2) (unclaim_locks 1 (some 3)) := by
  decide

/-- C9 (amended): two claims on the same channel share the `("help",
channel id)` lock, two invocations with the same author share the author
locks, two unclaims of the same channel share the `("help.unclaim", channel)`
lock, and a claim excludes an unclaim whose cached claimant is the claim's
author; under the keyed-lock semantics a second overlapping claim of the same
channel is skipped, so exactly one claimant is recorded.  A claim and an
unclaim of the same channel alone are not mutually exclusive (see the
counterexample). -/
theorem keyed_lock_serialization (ch ch2 a a2 : Nat) (c c2 : Option Nat)
    (cfg : Config) (s : BotState) (id1 id2 ts1 ts2 : Nat) (pin1 pin2 mem1 mem2 : Bool) :
    MutuallyExclusive (claim_locks ch a) (claim_locks ch a2) ∧
    MutuallyExclusive (claim_locks ch a) (claim_locks ch2 a) ∧
    MutuallyExclusive (unclaim_locks ch c) (unclaim_locks ch c2) ∧
    MutuallyExclusive (claim_locks ch a) (unclaim_locks ch2 (some a)) ∧
    (runTwoClaims cfg s ch a a2 id1 id2 ts1 ts2 pin1 pin2 mem1 mem2).caches.claimants.get ch
      = some a := by
  refine ⟨⟨("help", Resource.intId ch), by simp [claim_locks], by simp [claim_locks]⟩,
    ⟨("help", Resource.intId a), by simp [claim_locks], by simp [claim_locks]⟩,
    ⟨("help.unclaim", Resource.chanObj ch), by simp [unclaim_locks], by simp [unclaim_locks]⟩,
    ⟨("help.unclaim", Resource.intId a), by simp [claim_locks], by simp [unclaim_locks]⟩, ?_⟩
  unfold runTwoClaims
  dsimp only
  have hcond : (([("help", Resource.intId ch), ("help", Resource.intId a2)] : List LockKey).any
      (fun k => decide (k ∈ claim_locks ch a))) = true := by
    simp [claim_locks]
  rw [if_pos hcond]
  cases pin1 <;> simp [claim_channel, pinQuestion, move_to_in_use, Map.get, Map.set]

/-! ### String lemmas for the session-participants serialisation -/

/-- Python `split` never returns an empty list. -/
theorem pySplit_ne_nil (sep : Char) (s : List Char) : pySplit sep s ≠ [] := by
  induction s with
  | nil => simp [pySplit]
  | cons c cs ih =>
      by_cases h : c = sep
      · simp [pySplit, h]
      · cases hs : pySplit sep cs with
        | nil => simp [pySplit, h, hs]
        | cons p ps => simp [pySplit, h, hs]

/-- Splitting a separator-free string yields that string alone. -/
theorem pySplit_no_sep (sep : Char) (x : List Char) (hx : sep ∉ x) :
    pySplit sep x = [x] := by
  induction x with
  | nil => rfl
  | cons c cs ih =>
      have hc : ¬ c = sep := fun e => hx (e ▸ List.mem_cons_self c cs)
      have ih2 := ih (fun hm => hx (List.mem_cons_of_mem c hm))
      simp [pySplit, hc, ih2]

/-- Splitting past a separator-free prefix peels that prefix off. -/
theorem pySplit_append (sep : Char) (x t : List Char) (hx : sep ∉ x) :
    pySplit sep (x ++ sep :: t) = x :: pySplit sep t := by
  induction x with
  | nil => simp [pySplit]
  | cons c cs ih =>
      have hc : ¬ c = sep := fun e => hx (e ▸ List.mem_cons_self c cs)
      have ih2 := ih (fun hm => hx (List.mem_cons_of_mem c hm))
      rw [List.cons_append]
      cases hs : pySplit sep (cs ++ sep :: t) with
      | nil => exact absurd hs (pySplit_ne_nil sep _)
      | cons p ps =>
          rw [hs] at ih2
          simp [pySplit, hc, hs]
          cases ih2 with
          | _ => simp_all

/-- Joining onto a nonempty tail inserts one separator. -/
theorem pyJoin_sep_cons (sep : Char) (x : List Char) (y : List (List Char)) (hy : y ≠ []) :
    pyJoin [sep] (x :: y) = x ++ sep :: pyJoin [sep] y := by
  cases y with
  | nil => exact absurd rfl hy
  | cons z zs => simp [pyJoin]

/-- `split` undoes `join` on a nonempty list of separator-free fragments. -/
theorem pySplit_pyJoin (sep : Char) (parts : List (List Char)) (h1 : parts ≠ [])
    (h2 : ∀ p ∈ parts, sep ∉ p) :
    pySplit sep (pyJoin [sep] parts) = parts := by
  induction parts with
  | nil => exact absurd rfl h1
  | cons x ys ih =>
      cases ys with
      | nil =>
          show pySplit sep (pyJoin [sep] [x]) = [x]
          exact pySplit_no_sep sep x (h2 x (List.mem_cons_self x []))
      | cons y zs =>
          rw [pyJoin_sep_cons sep x (y :: zs) (by simp)]
          rw [pySplit_append sep x _ (h2 x (List.mem_cons_self x _))]
          rw [ih (by simp) (fun p hp => h2 p (List.mem_cons_of_mem x hp))]

/-- Parsing a rendered decimal digit gives the digit back. -/
theorem charVal_digitChar (d : Nat) (h : d < 10) :
    charVal (Nat.digitChar d) = d := by
  interval_cases d <;> rfl

/-- Appending a digit multiplies the parsed prefix by ten. -/
theorem parseNat_append_digit (xs : List Char) (c : Char) :
    parseNat (xs ++ [c]) = parseNat xs * 10 + charVal c := by
  simp [parseNat, List.foldl_append]

/-- Parsing rendered digits computes the base-ten value. -/
theorem parseNat_ofDigits (ds : List Nat) (h : ∀ d ∈ ds, d < 10) :
    parseNat ((ds.reverse).map Nat.digitChar) = Nat.ofDigits 10 ds := by
  induction ds with
  | nil => rfl
  | cons d ds ih =>
      rw [List.reverse_cons, List.map_append]
      simp only [List.map_cons, List.map_nil]
      rw [parseNat_append_digit]
      rw [ih (fun x hx => h x (List.mem_cons_of_mem d hx))]
      rw [charVal_digitChar d (h d (List.mem_cons_self d ds))]
      rw [Nat.ofDigits_cons]
      ring

/-- `int(str(n))` round-trips on naturals. -/
theorem parseNat_renderNat (n : Nat) : parseNat (renderNat n) = n := by
  by_cases h : n = 0
  · subst h; rfl
  · unfold renderNat
    rw [if_neg h]
    rw [parseNat_ofDigits _ (fun d hd => Nat.digits_lt_base (by norm_num) hd)]
    exact Nat.ofDigits_digits 10 n

/-- A decimal digit character is not a minus sign. -/
theorem digitChar_ne_minus (d : Nat) (h : d < 10) : Nat.digitChar d ≠ '-' := by
  interval_cases d <;> decide

/-- A decimal digit character is not a comma. -/
theorem digitChar_ne_comma (d : Nat) (h : d < 10) : Nat.digitChar d ≠ ',' := by
  interval_cases d <;> decide

/-- A rendered natural is never the empty string. -/
theorem renderNat_ne_nil (n : Nat) : renderNat n ≠ [] := by
  unfold renderNat
  by_cases h : n = 0
  · simp [h]
  · simp [h, Nat.digits_ne_nil_iff_ne_zero, h]

/-- Every character of a rendered natural is a digit: neither a minus sign
nor a comma. -/
theorem renderNat_mem (n : Nat) (c : Char) (hc : c ∈ renderNat n) :
    c ≠ '-' ∧ c ≠ ',' := by
  unfold renderNat at hc
  by_cases h : n = 0
  · rw [if_pos h] at hc
    simp at hc
    subst hc
    exact ⟨by decide, by decide⟩
  · rw [if_neg h] at hc
    rw [List.mem_map] at hc
    obtain ⟨d, hd, hdc⟩ := hc
    rw [List.mem_reverse] at hd
    have hlt : d < 10 := Nat.digits_lt_base (by norm_num) hd
    exact ⟨hdc ▸ digitChar_ne_minus d hlt, hdc ▸ digitChar_ne_comma d hlt⟩

/-- `int(str(i))` round-trips on integers. -/
theorem parseInt_renderInt (i : Int) : parseInt (renderInt i) = i := by
  cases i with
  | ofNat n =>
      show parseInt (renderNat n) = n
      cases hr : renderNat n with
      | nil => exact absurd hr (renderNat_ne_nil n)
      | cons c cs =>
          have hcm : c ∈ renderNat n := hr ▸ List.mem_cons_self c cs
          have hmin : ¬ c = '-' := (renderNat_mem n c hcm).1
          show (if c = '-' then -(parseNat cs : Int) else (parseNat (c :: cs) : Int)) = n
          rw [if_neg hmin, ← hr, parseNat_renderNat]
  | negSucc m =>
      show parseInt ('-' :: renderNat (m + 1)) = Int.negSucc m
      simp only [parseInt, if_pos rfl, parseNat_renderNat]
      simp [Int.negSucc_eq]

/-- A rendered integer is never the empty string. -/
theorem renderInt_ne_nil (i : Int) : renderInt i ≠ [] := by
  cases i with
  | ofNat n => exact renderNat_ne_nil n
  | negSucc m => simp [renderInt]

/-- A rendered integer contains no comma. -/
theorem renderInt_no_comma (i : Int) : (',' : Char) ∉ renderInt i := by
  cases i with
  | ofNat n => exact fun hm => (renderNat_mem n ',' hm).2 rfl
  | negSucc m =>
      intro hm
      rcases List.mem_cons.mp hm with h | h
      · exact absurd h (by decide)
      · exact (renderNat_mem (m + 1) ',' h).2 rfl

/-- C10: deserialising the serialisation of any finite set of user ids gives
the set back, including the empty set, which round-trips through the empty
string. -/
theorem serialise_roundtrip (s : Finset Int) :
    _deserialise_session_participants (_serialise_session_participants s) = s ∧
    _serialise_session_participants (∅ : Finset Int) = [] ∧
    _deserialise_session_participants [] = ∅ := by
  refine ⟨?_, by simp [_serialise_session_participants, Finset.sort_empty, pyJoin], by rfl⟩
  unfold _serialise_session_participants _deserialise_session_participants
  cases hl : s.sort (fun a b => a ≤ b) with
  | nil =>
      have hs : s = ∅ := by
        have h2 := Finset.sort_toFinset (fun (a b : Int) => a ≤ b) s
        rw [hl] at h2
        simpa using h2.symm
      rw [hs]
      rfl
  | cons x xs =>
      have hparts : ∀ p ∈ (x :: xs).map renderInt, (',') ∉ p := by
        intro p hp
        rw [List.mem_map] at hp
        obtain ⟨i, _, hip⟩ := hp
        exact hip ▸ renderInt_no_comma i
      rw [pySplit_pyJoin ',' _ (by simp) hparts]
      have hfil : ((x :: xs).map renderInt).filter (fun u => !u.isEmpty)
          = (x :: xs).map renderInt := by
        apply List.filter_eq_self.mpr
        intro p hp
        rw [List.mem_map] at hp
        obtain ⟨i, _, hip⟩ := hp
        rw [← hip]
        simp [List.isEmpty_iff, renderInt_ne_nil i]
      rw [hfil, List.map_map]
      have hmap : List.map (parseInt ∘ renderInt) (x :: xs)
          = List.map (fun a : Int => a) (x :: xs) :=
        List.map_congr_left (fun a _ => parseInt_renderInt a)
      have hid : List.map (fun a : Int => a) (x :: xs) = x :: xs := by simp
      rw [hmap, hid, ← hl]
      exact Finset.sort_toFinset _ s

end HelpBot
